import Mathlib

/-!
# Verification of butler's install-perform orchestration

A shallow embedding of `src/cmd/operate/install_perform.go`: the strategy
selector and probe pipeline of `InstallPrepare`, the forced-local copy
`doForceLocal`, the install/nested-install executor (the continuation task of
`doInstallPerform`), and the top-level `InstallPerform` wiring.

External collaborators (the itch.io API client, `eos` file opening, the
`installer` backend package, filesystem calls, notifications) are modelled as
environments holding the outcome of each effectful call, so every control-flow
decision of the Go source becomes a pure, executable Lean function of those
outcomes plus the persisted `InstallSubcontextState`.
-/

namespace Butler

/-- An upload, from go-itchio (`src/unnamed/part_000`): only the fields the
orchestration reads (`ID`, `Size`, both `int64`). -/
structure Upload where
  id : Int
  size : Int
deriving DecidableEq

/-- A build, from go-itchio (`src/unnamed/part_000`): only `ID` is read. -/
structure Build where
  id : Int
deriving DecidableEq

/-- Receipt of a previous install. The `bfs` package is not under `src/`;
modelled from the spec ("durable record of what is currently installed:
target identity (game/upload/build), list of installed file paths") and from
the fields the source reads (`receiptIn.Upload`, `receiptIn.Build`). -/
structure Receipt where
  upload : Option Upload
  build : Option Build
  files : List String
deriving DecidableEq

/-- Modelled from the spec: the Format Prober classification, `type` one of
Archive / BareFile / NativeInstaller / Unsupported / Unknown (the `installer`
package is not under `src/`). `naked` is the source's name for a bare file;
`windows` stands for the native Windows-installer classifications that
`installer.IsWindowsInstaller` recognizes. -/
inductive InstallerType where
  | archive
  | naked
  | windows
  | unsupported
  | unknown
deriving DecidableEq

/-- Modelled from the spec: `installer.IsWindowsInstaller` holds exactly for
the native-installer classifications. -/
def IsWindowsInstaller : InstallerType → Bool
  | .windows => true
  | _ => false

/-- Result of a Format Prober pass; the source only ever reads its `Type`. -/
structure InstallerInfo where
  type : InstallerType
deriving DecidableEq

/-- `installer.InstallResult`: the manifest of relative paths written by a
backend run (the source reads `Files`). -/
structure InstallResult where
  files : List String
deriving DecidableEq

/-- The "install" subcontext record persisted in the staging store
(`InstallSubcontextState`), with exactly the fields the source reads and
writes. -/
structure InstallSubcontextState where
  downloadSessionId : String
  isAvailableLocally : Bool
  installerInfo : Option InstallerInfo
  secondInstallerInfo : Option InstallerInfo
  firstInstallResult : Option InstallResult
deriving DecidableEq

/-- The parameters of the operation that `InstallPrepare` and the executor
read: `params.Upload` (dereferenced unconditionally by the source, hence not
optional here), `params.Build` (nil-checked by the source) and
`params.IgnoreInstallers`. -/
structure InstallPerformParams where
  upload : Upload
  build : Option Build
  ignoreInstallers : Bool
deriving DecidableEq

/-- Error values threaded through the pipeline. Distinguished constructors
exist exactly for the errors the source matches on or returns specially:
`butlerd.CodeUnsupportedPackaging`, `installer.ErrNeedLocal` (compared via
`errors.Cause`), and `butlerd.CodeOperationCancelled`; everything else is an
opaque message. -/
inductive Err where
  | unsupportedPackaging
  | needLocal
  | operationCancelled
  | other (msg : String)
deriving DecidableEq

/-- One step of an upgrade path returned by `client.FindUpgrade`: the source
reads `item.ID` and `item.PatchSize` (both `int64`). -/
structure UpgradePathItem where
  id : Int
  patchSize : Int
deriving DecidableEq

/-- Go: `type InstallPerformStrategy = int` (a type alias, so the zero value
of `InstallPrepareResult.Strategy` is `InstallPerformStrategyNone`). -/
abbrev InstallPerformStrategy := Int

def InstallPerformStrategyNone : InstallPerformStrategy := 0

def InstallPerformStrategyInstall : InstallPerformStrategy := 1

def InstallPerformStrategyHeal : InstallPerformStrategy := 2

/-- How a run of `InstallPrepare` ends: returning an error before invoking the
continuation task, returning `nil` without invoking it (the external-upload
path with downloads disallowed), or invoking `task` with the built
`InstallPrepareResult` (its `Strategy` and `ReceiptIn` fields; the `File`
field is a handle with no bearing on the claims). -/
inductive PrepareOutcome where
  | err (e : Err)
  | noTask
  | task (strategy : InstallPerformStrategy) (receiptIn : Option Receipt)
deriving DecidableEq

/-- Result of running the `InstallPrepare` embedding: the outcome, the
persisted subcontext state after the run, and whether `client.FindUpgrade`
was invoked during strategy selection. -/
structure PrepareStepResult where
  outcome : PrepareOutcome
  istate : InstallSubcontextState
  findUpgradeCalled : Bool
deriving DecidableEq

/-- Outcomes of the three effectful calls inside `doForceLocal`: `file.Stat`,
the download block (task notifications plus `DownloadInstallSource`), and the
final `eos.Open` of the local destination. -/
structure ForceLocalEnv where
  stat : Except Err Unit
  download : Except Err Unit
  openDest : Except Err Unit

/-- Outcomes of the effectful calls made by `InstallPrepare`:
`bfs.ReadReceipt` (a read error is logged and collapses to no receipt, lines
148-152), `client.NewDownloadSession`, `client.FindUpgrade`, `eos.Open` of the
install source, `UploadIsProbablyExternal`, the `doForceLocal` internals,
`installer.GetInstallerInfo`, the seek back to start, and `AssessDiskUsage`. -/
structure PrepareEnv where
  receiptIn : Option Receipt
  newDownloadSession : Except Err String
  findUpgrade : Except Err (List UpgradePathItem)
  openSource : Except Err Unit
  uploadIsProbablyExternal : Bool
  forceLocal : ForceLocalEnv
  probe : Except Err InstallerInfo
  seek : Except Err Unit
  assessDiskUsage : Except Err Unit

/-- `doForceLocal` (lines 67-128): stat the source; if the copy is already
recorded as local, reuse it, otherwise download, record
`IsAvailableLocally = true` and save; finally open the local destination. -/
def doForceLocal (env : ForceLocalEnv) (istate : InstallSubcontextState) :
    Except Err Unit × InstallSubcontextState :=
  match env.stat with
  | .error e => (.error e, istate)
  | .ok _ =>
    if istate.isAvailableLocally then
      (env.openDest, istate)
    else
      match env.download with
      | .error e => (.error e, istate)
      | .ok _ =>
        let istate1 := { istate with isAvailableLocally := true }
        (env.openDest, istate1)

/-- Sum of the patch sizes along an upgrade path, skipping the entry whose ID
equals the currently installed build's ID (lines 208-216). -/
def totalUpgradeSize (upgradePath : List UpgradePathItem) (oldID : Int) : Int :=
  (upgradePath.filter (fun item => item.id != oldID)).foldl
    (fun acc item => acc + item.patchSize) 0

/-- The receipt-comparison block of `InstallPrepare` (lines 188-246). First
component: whether the block returns `task(res)` with `Strategy = Heal`
(`false` means control falls through to the install path). Second component:
whether `client.FindUpgrade` was invoked. In the upgrade case every branch
heals: a failed query heals (lines 200-205), a too-large upgrade heals (lines
229-233), and the remaining TODO-update case falls through to the re-install
heal at lines 242-244. -/
def healDecision (receiptIn : Option Receipt) (params : InstallPerformParams)
    (findUpgrade : Except Err (List UpgradePathItem)) : Bool × Bool :=
  match receiptIn with
  | none => (false, false)
  | some receipt =>
    match receipt.upload with
    | none => (false, false)
    | some u =>
      if u.id = params.upload.id then
        match receipt.build, params.build with
        | some oldBuild, some newBuild =>
          if newBuild.id > oldBuild.id then
            match findUpgrade with
            | .error _ => (true, true)
            | .ok upgradePath =>
              if totalUpgradeSize upgradePath oldBuild.id > params.upload.size then
                (true, true)
              else
                (true, true)
          else
            (true, false)
        | _, _ => (false, false)
      else (false, false)

/-- The terminal check of `InstallPrepare` (lines 317-323): refuse with
`butlerd.CodeUnsupportedPackaging` when the installer info in effect has type
Unsupported, otherwise invoke the task. `res.Strategy` was never assigned on
this path, so the task receives the zero value `InstallPerformStrategyNone`. -/
def checkUnsupported (info : InstallerInfo) (istate : InstallSubcontextState)
    (receiptIn : Option Receipt) : PrepareStepResult :=
  if info.type = InstallerType.unsupported then
    ⟨.err .unsupportedPackaging, istate, false⟩
  else
    ⟨.task InstallPerformStrategyNone receiptIn, istate, false⟩

/-- The fresh-probe branch of `InstallPrepare` (lines 277-312): probe the
source, seek back to the start, degrade every non-Archive non-Naked
classification to Naked when `IgnoreInstallers` is set (lines 290-300), assess
disk usage, then cache the info and fall into the terminal check. -/
def probeFresh (env : PrepareEnv) (params : InstallPerformParams)
    (istate : InstallSubcontextState) (receiptIn : Option Receipt) : PrepareStepResult :=
  match env.probe with
  | .error e => ⟨.err e, istate, false⟩
  | .ok info0 =>
    match env.seek with
    | .error e => ⟨.err e, istate, false⟩
    | .ok _ =>
      let info1 :=
        if params.ignoreInstallers then
          match info0.type with
          | .archive => info0
          | .naked => info0
          | _ => { info0 with type := InstallerType.naked }
        else info0
      match env.assessDiskUsage with
      | .error e => ⟨.err e, istate, false⟩
      | .ok _ =>
        checkUnsupported info1 { istate with installerInfo := some info1 } receiptIn

/-- The prober phase of `InstallPrepare` (lines 276-323): reuse the cached
classification unless it is absent or Unknown, in which case probe afresh. -/
def probePhase (env : PrepareEnv) (params : InstallPerformParams)
    (istate : InstallSubcontextState) (receiptIn : Option Receipt) : PrepareStepResult :=
  match istate.installerInfo with
  | some info =>
    if info.type = InstallerType.unknown then
      probeFresh env params istate receiptIn
    else
      checkUnsupported info istate receiptIn
  | none => probeFresh env params istate receiptIn

/-- The install path of `InstallPrepare` (lines 248-323): open the install
source; for an external upload with no build, bail out quietly when downloads
are disallowed or force a local copy first; then run the prober phase. -/
def installPath (env : PrepareEnv) (params : InstallPerformParams)
    (istate : InstallSubcontextState) (allowDownloads : Bool)
    (receiptIn : Option Receipt) : PrepareStepResult :=
  match env.openSource with
  | .error e => ⟨.err e, istate, false⟩
  | .ok _ =>
    if params.build = none ∧ env.uploadIsProbablyExternal then
      if allowDownloads then
        match doForceLocal env.forceLocal istate with
        | (.error e, istate1) => ⟨.err e, istate1, false⟩
        | (.ok _, istate1) => probePhase env params istate1 receiptIn
      else
        ⟨.noTask, istate, false⟩
    else
      probePhase env params istate receiptIn

/-- `InstallPrepare` after the download-session step: run the
receipt-comparison block; a heal decision invokes the task at once with
`Strategy = Heal`, otherwise control continues on the install path. -/
def installPrepareAfterSession (env : PrepareEnv) (params : InstallPerformParams)
    (istate : InstallSubcontextState) (allowDownloads : Bool)
    (receiptIn : Option Receipt) : PrepareStepResult :=
  match healDecision receiptIn params env.findUpgrade with
  | (true, fuc) => ⟨.task InstallPerformStrategyHeal receiptIn, istate, fuc⟩
  | (false, _) => installPath env params istate allowDownloads receiptIn

/-- `InstallPrepare` (lines 132-324): read the receipt (a read error collapses
to "no receipt"), start a download session unless one is recorded, then select
a strategy and run the install path. -/
def installPrepare (env : PrepareEnv) (params : InstallPerformParams)
    (istate : InstallSubcontextState) (allowDownloads : Bool) : PrepareStepResult :=
  let receiptIn := env.receiptIn
  if istate.downloadSessionId = "" then
    match env.newDownloadSession with
    | .error e => ⟨.err e, istate, false⟩
    | .ok uuid =>
      installPrepareAfterSession env params
        { istate with downloadSessionId := uuid } allowDownloads receiptIn
  else
    installPrepareAfterSession env params istate allowDownloads receiptIn

/-- Outcomes of the effectful calls made by the continuation task inside
`doInstallPerform` (lines 337-542): `prepareRes.File.Stat`, the
`installer.GetManager` lookups, the successive `tryInstall` invocations
(indexed in call order; each outcome bundles the cancellation check, the
`TaskStarted` notification and `manager.Install`), the forced-local retry
internals, the single-file probe (`os.Open` plus `GetInstallerInfo`), the
nested relocation (`os.Stat` hit, `MkdirAll`, `RemoveAll`, `Rename`,
`os.Open`), `commitInstall`, and `heal`. -/
structure PerformEnv where
  statFile : Except Err Unit
  managerExists : Bool
  attempts : Nat → Except Err InstallResult
  forceLocal : ForceLocalEnv
  openSingle : Except Err Unit
  probeSecond : Except Err InstallerInfo
  nestedManagerExists : Bool
  nestedDestExists : Bool
  mkdirAll : Except Err Unit
  removeAll : Except Err Unit
  renameSingle : Except Err Unit
  openNested : Except Err Unit
  commit : Except Err Unit
  healResult : Except Err Unit

/-- Result of the first install step (lines 415-442): the manifest or the
propagated error, the subcontext state after it, and how many `tryInstall`
invocations were performed. -/
structure FirstStepOut where
  result : Except Err InstallResult
  istate : InstallSubcontextState
  calls : Nat

/-- The first install step (lines 415-442): reuse a recorded
`FirstInstallResult`; otherwise run `tryInstall` once and, exactly when the
failure's cause is `installer.ErrNeedLocal`, force a local copy and retry the
same backend once. A failed forced-local copy propagates the original error
(line 425); a successful run is recorded in the subcontext. -/
def firstInstallStep (env : PerformEnv) (istate : InstallSubcontextState) : FirstStepOut :=
  match istate.firstInstallResult with
  | some r => ⟨.ok r, istate, 0⟩
  | none =>
    match env.attempts 0 with
    | .ok r => ⟨.ok r, { istate with firstInstallResult := some r }, 1⟩
    | .error e =>
      if e = Err.needLocal then
        match doForceLocal env.forceLocal istate with
        | (.error _, istate1) => ⟨.error e, istate1, 1⟩
        | (.ok _, istate1) =>
          match env.attempts 1 with
          | .ok r => ⟨.ok r, { istate1 with firstInstallResult := some r }, 2⟩
          | .error e2 => ⟨.error e2, istate1, 2⟩
      else ⟨.error e, istate, 1⟩

/-- Result of the nested-installer block: `ok none` means "no nested install,
keep the first result" (lines 477-480 and 467-469), `ok (some (si, res))`
means the nested backend ran with classification `si` and produced `res`;
`nestedCalls` counts nested `tryInstall` invocations. -/
structure NestedOut where
  result : Except Err (Option (InstallerInfo × InstallResult))
  istate : InstallSubcontextState
  nestedCalls : Nat

/-- The second Format Prober pass in effect for the single installed file:
the cached `SecondInstallerInfo` when present, otherwise the fresh probe's
result when opening and probing succeed (a projection of `nestedStep`, lines
454-475). -/
def nestedSecondInfo (env : PerformEnv) (istate : InstallSubcontextState) :
    Option InstallerInfo :=
  match istate.secondInstallerInfo with
  | some si => some si
  | none =>
    match env.openSingle with
    | .error _ => none
    | .ok _ =>
      match env.probeSecond with
      | .error _ => none
      | .ok si => some si

/-- Dispatch on the second classification (lines 477-524): a non-Windows
installer type is ignored; otherwise look up the nested manager, relocate the
single file into the nested-install-source folder (skipping relocation when
the destination already exists), open it and invoke `tryInstall` once more. -/
def nestedDispatch (env : PerformEnv) (istate : InstallSubcontextState)
    (firstCalls : Nat) (si : InstallerInfo) : NestedOut :=
  if IsWindowsInstaller si.type then
    if env.nestedManagerExists then
      let moveResult : Except Err Unit :=
        if env.nestedDestExists then .ok ()
        else
          match env.mkdirAll with
          | .error e => .error e
          | .ok _ =>
            match env.removeAll with
            | .error e => .error e
            | .ok _ => env.renameSingle
      match moveResult with
      | .error e => ⟨.error e, istate, 0⟩
      | .ok _ =>
        match env.openNested with
        | .error e => ⟨.error e, istate, 0⟩
        | .ok _ =>
          match env.attempts firstCalls with
          | .error e => ⟨.error e, istate, 1⟩
          | .ok res2 => ⟨.ok (some (si, res2)), istate, 1⟩
    else
      ⟨.error (.other "Don't know how to install packages of this type"), istate, 0⟩
  else
    ⟨.ok none, istate, 0⟩

/-- The nested-installer block (lines 453-525): reuse the cached second
classification or probe the single file afresh — a failed fresh probe is
logged and skips nesting without caching (lines 466-469), a successful one is
cached — then dispatch on it. -/
def nestedStep (env : PerformEnv) (istate : InstallSubcontextState)
    (firstCalls : Nat) : NestedOut :=
  match istate.secondInstallerInfo with
  | some si => nestedDispatch env istate firstCalls si
  | none =>
    match env.openSingle with
    | .error e => ⟨.error e, istate, 0⟩
    | .ok _ =>
      match env.probeSecond with
      | .error _ => ⟨.ok none, istate, 0⟩
      | .ok si =>
        nestedDispatch env { istate with secondInstallerInfo := some si } firstCalls si

/-- Result of the continuation task: its returned error or success, the final
subcontext state, the total number of `tryInstall` invocations, the number of
nested invocations, and what was handed to `commitInstall` (final installer
type and final manifest) when commit was reached. -/
structure PerformOut where
  outcome : Except Err Unit
  istate : InstallSubcontextState
  installCalls : Nat
  nestedCalls : Nat
  committed : Option (InstallerType × InstallResult)

/-- The continuation task passed to `InstallPrepare` by `doInstallPerform`
(lines 337-542): heal on the Heal strategy; otherwise stat the file, look up
the backend for the cached installer info, run the first install step, run the
nested-installer block exactly when the first manifest has exactly one file,
and commit the final result. The `none` arm for a missing installer info
models the nil dereference the Go would hit (unreachable when invoked through
`InstallPrepare`, which always caches the info on the install path). -/
def installTask (env : PerformEnv) (istate : InstallSubcontextState)
    (prepareStrategy : InstallPerformStrategy) (receiptIn : Option Receipt) : PerformOut :=
  if prepareStrategy = InstallPerformStrategyHeal then
    ⟨env.healResult, istate, 0, 0, none⟩
  else
    match env.statFile with
    | .error e => ⟨.error e, istate, 0, 0, none⟩
    | .ok _ =>
      match istate.installerInfo with
      | none => ⟨.error (.other "nil installer info dereference"), istate, 0, 0, none⟩
      | some info =>
        if env.managerExists then
          match firstInstallStep env istate with
          | ⟨.error e, istate1, c1⟩ => ⟨.error e, istate1, c1, 0, none⟩
          | ⟨.ok firstResult, istate1, c1⟩ =>
            if firstResult.files.length = 1 then
              match nestedStep env istate1 c1 with
              | ⟨.error e, istate2, nc⟩ => ⟨.error e, istate2, c1 + nc, nc, none⟩
              | ⟨.ok none, istate2, nc⟩ =>
                ⟨env.commit, istate2, c1 + nc, nc, some (info.type, firstResult)⟩
              | ⟨.ok (some (si, res2)), istate2, nc⟩ =>
                ⟨env.commit, istate2, c1 + nc, nc, some (si.type, res2)⟩
            else
              ⟨env.commit, istate1, c1, 0, some (info.type, firstResult)⟩
        else
          ⟨.error (.other "No manager for installer"), istate, 0, 0, none⟩

/-- Outcome and final subcontext state of `doInstallPerform` (lines 326-543):
run `InstallPrepare` with `allowDownloads = true` and the continuation task
above; an error or quiet return from the prepare phase is the function's
result, otherwise the task's. -/
structure PipelineOut where
  outcome : Except Err Unit
  istate : InstallSubcontextState

/-- `doInstallPerform` (lines 326-543). -/
def doInstallPerform (penv : PrepareEnv) (tenv : PerformEnv)
    (params : InstallPerformParams) (istate0 : InstallSubcontextState) : PipelineOut :=
  let prep := installPrepare penv params istate0 true
  match prep.outcome with
  | .err e => ⟨.error e, prep.istate⟩
  | .noTask => ⟨.ok (), prep.istate⟩
  | .task s r =>
    let t := installTask tenv prep.istate s r
    ⟨t.outcome, t.istate⟩

/-- Result of `InstallPerform`: the returned error or success, and whether
`oc.Retire()` was invoked. -/
structure TopOut where
  outcome : Except Err Unit
  retired : Bool

/-- `InstallPerform` (lines 25-51): reject an empty staging folder, load the
operation context, run `doInstallPerform`, and retire the context — deleting
the staging state — only after it returns success. -/
def installPerform (stagingFolder : String) (loadContext : Except Err Unit)
    (penv : PrepareEnv) (tenv : PerformEnv) (params : InstallPerformParams)
    (istate0 : InstallSubcontextState) (retire : Except Err Unit) : TopOut :=
  if stagingFolder = "" then
    ⟨.error (.other "No staging folder specified"), false⟩
  else
    match loadContext with
    | .error e => ⟨.error e, false⟩
    | .ok _ =>
      match (doInstallPerform penv tenv params istate0).outcome with
      | .error e => ⟨.error e, false⟩
      | .ok _ =>
        match retire with
        | .error e => ⟨.error e, true⟩
        | .ok _ => ⟨.ok (), true⟩

/-! ## Concrete fixtures used by witnesses and counterexamples -/

/-- A forced-local environment where every call succeeds. -/
def okForceLocal : ForceLocalEnv :=
  { stat := .ok (), download := .ok (), openDest := .ok () }

/-- A prepare environment where every effectful call succeeds, there is no
previous receipt, and the probe classifies the source as an archive. -/
def basePrepareEnv : PrepareEnv :=
  { receiptIn := none
  , newDownloadSession := .ok "session-1"
  , findUpgrade := .ok []
  , openSource := .ok ()
  , uploadIsProbablyExternal := false
  , forceLocal := okForceLocal
  , probe := .ok ⟨.archive⟩
  , seek := .ok ()
  , assessDiskUsage := .ok () }

/-- A perform environment where every effectful call succeeds, every backend
run produces a two-file manifest, and both manager lookups succeed. -/
def basePerformEnv : PerformEnv :=
  { statFile := .ok ()
  , managerExists := true
  , attempts := fun _ => .ok ⟨["a", "b"]⟩
  , forceLocal := okForceLocal
  , openSingle := .ok ()
  , probeSecond := .ok ⟨.naked⟩
  , nestedManagerExists := true
  , nestedDestExists := false
  , mkdirAll := .ok ()
  , removeAll := .ok ()
  , renameSingle := .ok ()
  , openNested := .ok ()
  , commit := .ok ()
  , healResult := .ok () }

/-- A fresh subcontext state with a recorded download session. -/
def baseIstate : InstallSubcontextState :=
  { downloadSessionId := "session-1"
  , isAvailableLocally := false
  , installerInfo := none
  , secondInstallerInfo := none
  , firstInstallResult := none }

/-- Parameters requesting upload 1 (full size 100) with no build. -/
def baseParams : InstallPerformParams :=
  { upload := ⟨1, 100⟩, build := none, ignoreInstallers := false }

/-! ## C2, C3, C4 — strategy selection for upgrades, failed upgrade-path
queries, and same-version / downgrade requests -/

/-- C2: in the upgrade case (same upload, strictly newer requested build)
with a successful upgrade-path query, a total upgrade size greater than or
equal to the full upload size selects the Heal strategy — in particular the
exact tie resolves to Heal. -/
theorem upgrade_size_ge_full_heals (env : PrepareEnv) (params : InstallPerformParams)
    (istate : InstallSubcontextState) (allowDownloads : Bool) (r : Receipt)
    (u : Upload) (oldBuild newBuild : Build) (upgradePath : List UpgradePathItem)
    (hsess : istate.downloadSessionId ≠ "")
    (hr : env.receiptIn = some r) (hu : r.upload = some u)
    (hid : u.id = params.upload.id)
    (hob : r.build = some oldBuild) (hnb : params.build = some newBuild)
    (hgt : oldBuild.id < newBuild.id)
    (hfu : env.findUpgrade = .ok upgradePath)
    (hsize : params.upload.size ≤ totalUpgradeSize upgradePath oldBuild.id) :
    (installPrepare env params istate allowDownloads).outcome
      = PrepareOutcome.task InstallPerformStrategyHeal (some r) := by
  unfold installPrepare
  rw [if_neg hsess]
  simp [installPrepareAfterSession, healDecision, hr, hu, hob, hnb, hfu, hid, hgt]

/-- Witness for C2 at the exact tie: a 60 + 40 = 100 patch chain against a
full size of 100 heals. -/
theorem upgrade_size_ge_full_heals_witness :
    (installPrepare
        { basePrepareEnv with
            receiptIn := some ⟨some ⟨1, 100⟩, some ⟨5⟩, ["old"]⟩
          , findUpgrade := .ok [⟨6, 60⟩, ⟨7, 40⟩] }
        { baseParams with build := some ⟨7⟩ } baseIstate true).outcome
      = PrepareOutcome.task InstallPerformStrategyHeal
          (some ⟨some ⟨1, 100⟩, some ⟨5⟩, ["old"]⟩) :=
  upgrade_size_ge_full_heals _ _ _ _ _ _ _ _ _
    (by decide) rfl rfl rfl rfl rfl (by decide) rfl (by decide)

/-- C3: in the upgrade case, a failed upgrade-path query falls back to Heal
and still invokes the task — the query failure is not returned as an error
from `InstallPrepare`. -/
theorem upgrade_query_failure_heals (env : PrepareEnv) (params : InstallPerformParams)
    (istate : InstallSubcontextState) (allowDownloads : Bool) (r : Receipt)
    (u : Upload) (oldBuild newBuild : Build) (e : Err)
    (hsess : istate.downloadSessionId ≠ "")
    (hr : env.receiptIn = some r) (hu : r.upload = some u)
    (hid : u.id = params.upload.id)
    (hob : r.build = some oldBuild) (hnb : params.build = some newBuild)
    (hgt : oldBuild.id < newBuild.id)
    (hfu : env.findUpgrade = .error e) :
    (installPrepare env params istate allowDownloads).outcome
      = PrepareOutcome.task InstallPerformStrategyHeal (some r)
    ∧ (installPrepare env params istate allowDownloads).findUpgradeCalled = true := by
  unfold installPrepare
  rw [if_neg hsess]
  simp [installPrepareAfterSession, healDecision, hr, hu, hob, hnb, hfu, hid, hgt]

/-- Witness for C3: an unreachable upgrade-path endpoint heals. -/
theorem upgrade_query_failure_heals_witness :
    (installPrepare
        { basePrepareEnv with
            receiptIn := some ⟨some ⟨1, 100⟩, some ⟨5⟩, ["old"]⟩
          , findUpgrade := .error (.other "API down") }
        { baseParams with build := some ⟨9⟩ } baseIstate true).outcome
      = PrepareOutcome.task InstallPerformStrategyHeal
          (some ⟨some ⟨1, 100⟩, some ⟨5⟩, ["old"]⟩) :=
  (upgrade_query_failure_heals _ _ _ _ _ _ _ _ _
    (by decide) rfl rfl rfl rfl rfl (by decide) rfl).1

/-- C4: with an existing receipt for the same upload and a requested build no
newer than the installed one (same-version re-install or downgrade), the
strategy is Heal and `client.FindUpgrade` is never queried. -/
theorem reinstall_or_downgrade_heals_without_query (env : PrepareEnv)
    (params : InstallPerformParams) (istate : InstallSubcontextState)
    (allowDownloads : Bool) (r : Receipt) (u : Upload) (oldBuild newBuild : Build)
    (hsess : istate.downloadSessionId ≠ "")
    (hr : env.receiptIn = some r) (hu : r.upload = some u)
    (hid : u.id = params.upload.id)
    (hob : r.build = some oldBuild) (hnb : params.build = some newBuild)
    (hle : newBuild.id ≤ oldBuild.id) :
    (installPrepare env params istate allowDownloads).outcome
      = PrepareOutcome.task InstallPerformStrategyHeal (some r)
    ∧ (installPrepare env params istate allowDownloads).findUpgradeCalled = false := by
  unfold installPrepare
  rw [if_neg hsess]
  simp [installPrepareAfterSession, healDecision, hr, hu, hob, hnb, hid, not_lt.mpr hle]

/-- Witness for C4 at the spec's scenario C: receipt for upload 1 build 9,
request for upload 1 build 9 heals with no upgrade-path query. -/
theorem reinstall_or_downgrade_heals_without_query_witness :
    (installPrepare
        { basePrepareEnv with
            receiptIn := some ⟨some ⟨1, 100⟩, some ⟨9⟩, ["old"]⟩ }
        { baseParams with build := some ⟨9⟩ } baseIstate true).outcome
      = PrepareOutcome.task InstallPerformStrategyHeal
          (some ⟨some ⟨1, 100⟩, some ⟨9⟩, ["old"]⟩)
    ∧ (installPrepare
        { basePrepareEnv with
            receiptIn := some ⟨some ⟨1, 100⟩, some ⟨9⟩, ["old"]⟩ }
        { baseParams with build := some ⟨9⟩ } baseIstate true).findUpgradeCalled = false :=
  reinstall_or_downgrade_heals_without_query _ _ _ _ _ _ _ _
    (by decide) rfl rfl rfl rfl rfl (by decide)

/-! ## C1 — which Strategy value reaches the continuation task

The source only ever assigns `InstallPerformStrategyHeal` to `res.Strategy`
(lines 203, 231, 238, 243); on the fall-through install path the field keeps
its zero value, so the task is invoked with `None`, never with `Install`. -/

theorem checkUnsupported_task_strategy (info : InstallerInfo)
    (istate : InstallSubcontextState) (receiptIn : Option Receipt)
    (s : InstallPerformStrategy) (r : Option Receipt)
    (h : (checkUnsupported info istate receiptIn).outcome = .task s r) :
    s = InstallPerformStrategyNone := by
  unfold checkUnsupported at h
  split at h <;> simp_all

theorem probeFresh_task_strategy (env : PrepareEnv) (params : InstallPerformParams)
    (istate : InstallSubcontextState) (receiptIn : Option Receipt)
    (s : InstallPerformStrategy) (r : Option Receipt)
    (h : (probeFresh env params istate receiptIn).outcome = .task s r) :
    s = InstallPerformStrategyNone := by
  unfold probeFresh at h
  repeat' split at h
  all_goals
    first
      | exact checkUnsupported_task_strategy _ _ _ _ _ h
      | simp_all

theorem probePhase_task_strategy (env : PrepareEnv) (params : InstallPerformParams)
    (istate : InstallSubcontextState) (receiptIn : Option Receipt)
    (s : InstallPerformStrategy) (r : Option Receipt)
    (h : (probePhase env params istate receiptIn).outcome = .task s r) :
    s = InstallPerformStrategyNone := by
  unfold probePhase at h
  repeat' split at h
  all_goals
    first
      | exact checkUnsupported_task_strategy _ _ _ _ _ h
      | exact probeFresh_task_strategy _ _ _ _ _ _ h

theorem installPath_task_strategy (env : PrepareEnv) (params : InstallPerformParams)
    (istate : InstallSubcontextState) (allowDownloads : Bool)
    (receiptIn : Option Receipt) (s : InstallPerformStrategy) (r : Option Receipt)
    (h : (installPath env params istate allowDownloads receiptIn).outcome = .task s r) :
    s = InstallPerformStrategyNone := by
  unfold installPath at h
  repeat' split at h
  all_goals
    first
      | exact probePhase_task_strategy _ _ _ _ _ _ h
      | simp_all

theorem afterSession_task_strategy (env : PrepareEnv) (params : InstallPerformParams)
    (istate : InstallSubcontextState) (allowDownloads : Bool)
    (receiptIn : Option Receipt) (s : InstallPerformStrategy) (r : Option Receipt)
    (h : (installPrepareAfterSession env params istate allowDownloads receiptIn).outcome
      = .task s r) :
    s = InstallPerformStrategyHeal ∨ s = InstallPerformStrategyNone := by
  unfold installPrepareAfterSession at h
  rcases hd : healDecision receiptIn params env.findUpgrade with ⟨b, fuc⟩
  rw [hd] at h
  cases b
  · right
    exact installPath_task_strategy _ _ _ _ _ _ _ h
  · left
    simp only [PrepareStepResult.mk.injEq] at h
    simp_all

theorem installPrepare_task_strategy (env : PrepareEnv) (params : InstallPerformParams)
    (istate : InstallSubcontextState) (allowDownloads : Bool)
    (s : InstallPerformStrategy) (r : Option Receipt)
    (h : (installPrepare env params istate allowDownloads).outcome = .task s r) :
    s = InstallPerformStrategyHeal ∨ s = InstallPerformStrategyNone := by
  unfold installPrepare at h
  repeat' split at h
  all_goals
    first
      | exact afterSession_task_strategy _ _ _ _ _ _ _ h
      | simp_all

/-- C1 counterexample: a run with no previous receipt reaches the continuation
task, and the Strategy it hands over is `None` (the zero value), not
`Install`. -/
theorem install_path_strategy_counterexample :
    (installPrepare basePrepareEnv baseParams baseIstate true).outcome
      = PrepareOutcome.task InstallPerformStrategyNone none
    ∧ InstallPerformStrategyNone ≠ InstallPerformStrategyInstall := by
  refine ⟨by decide, by decide⟩

/-- C1 as amended: every run of `InstallPrepare` that reaches its continuation
task without choosing Heal hands over `Strategy = None` (the zero value of the
`InstallPrepareResult`), never `Install`; `doInstallPerform` in turn only
tests the strategy against Heal, so `None` selects the install pipeline. -/
theorem nonheal_task_strategy_is_none (env : PrepareEnv) (params : InstallPerformParams)
    (istate : InstallSubcontextState) (allowDownloads : Bool)
    (s : InstallPerformStrategy) (r : Option Receipt)
    (h : (installPrepare env params istate allowDownloads).outcome = .task s r)
    (hs : s ≠ InstallPerformStrategyHeal) :
    s = InstallPerformStrategyNone := by
  rcases installPrepare_task_strategy env params istate allowDownloads s r h with h2 | h2
  · exact absurd h2 hs
  · exact h2

/-- Witness for the amended C1 at a concrete no-receipt run. -/
theorem nonheal_task_strategy_is_none_witness :
    InstallPerformStrategyNone = InstallPerformStrategyNone :=
  nonheal_task_strategy_is_none basePrepareEnv baseParams baseIstate true
    InstallPerformStrategyNone none (by decide) (by decide)

/-! ## C5 — unsupported packaging is a distinct terminal error -/

theorem probePhase_cached_unsupported (env : PrepareEnv) (params : InstallPerformParams)
    (istate : InstallSubcontextState) (receiptIn : Option Receipt) (info : InstallerInfo)
    (hi : istate.installerInfo = some info) (ht : info.type = InstallerType.unsupported) :
    probePhase env params istate receiptIn
      = ⟨.err .unsupportedPackaging, istate, false⟩ := by
  simp [probePhase, hi, ht, checkUnsupported]

theorem probePhase_fresh_unsupported (env : PrepareEnv) (params : InstallPerformParams)
    (istate : InstallSubcontextState) (receiptIn : Option Receipt) (info0 : InstallerInfo)
    (hfresh : istate.installerInfo = none
      ∨ ∃ i, istate.installerInfo = some i ∧ i.type = InstallerType.unknown)
    (hp : env.probe = .ok info0) (ht : info0.type = InstallerType.unsupported)
    (hig : params.ignoreInstallers = false)
    (hsk : env.seek = .ok ()) (ha : env.assessDiskUsage = .ok ()) :
    (probePhase env params istate receiptIn).outcome = .err .unsupportedPackaging := by
  have hbody : (probeFresh env params istate receiptIn).outcome
      = .err .unsupportedPackaging := by
    unfold probeFresh
    rw [hp, hsk, ha, hig]
    simp [checkUnsupported, ht]
  unfold probePhase
  rcases hfresh with hn | ⟨i, hi, hit⟩
  · rw [hn]
    exact hbody
  · simp only [hi, hit, if_pos]
    simpa using hbody

/-- C5: when the installer info in effect — the cached classification, or the
freshly probed one when nothing usable is cached — has type Unsupported,
`InstallPrepare` returns the distinct `CodeUnsupportedPackaging` error and the
continuation task is never invoked. -/
theorem unsupported_packaging_terminal (env : PrepareEnv) (params : InstallPerformParams)
    (istate : InstallSubcontextState) (allowDownloads : Bool) (info : InstallerInfo)
    (hsess : istate.downloadSessionId ≠ "")
    (hheal : (healDecision env.receiptIn params env.findUpgrade).1 = false)
    (hopen : env.openSource = .ok ())
    (hext : env.uploadIsProbablyExternal = false)
    (hinfo : (istate.installerInfo = some info ∧ info.type = InstallerType.unsupported)
      ∨ ((istate.installerInfo = none
            ∨ ∃ i, istate.installerInfo = some i ∧ i.type = InstallerType.unknown)
          ∧ env.probe = .ok info ∧ info.type = InstallerType.unsupported
          ∧ params.ignoreInstallers = false
          ∧ env.seek = .ok () ∧ env.assessDiskUsage = .ok ())) :
    (installPrepare env params istate allowDownloads).outcome
      = .err .unsupportedPackaging := by
  unfold installPrepare
  rw [if_neg hsess]
  unfold installPrepareAfterSession
  rcases hd : healDecision env.receiptIn params env.findUpgrade with ⟨b, fuc⟩
  rw [hd] at hheal
  simp only at hheal
  subst hheal
  have hip : installPath env params istate allowDownloads env.receiptIn
      = probePhase env params istate env.receiptIn := by
    unfold installPath
    rw [hopen, hext]
    simp
  rw [hip]
  rcases hinfo with ⟨hi, ht⟩ | ⟨hfresh, hp, ht, hig, hsk, ha⟩
  · rw [probePhase_cached_unsupported env params istate env.receiptIn info hi ht]
  · exact probePhase_fresh_unsupported env params istate env.receiptIn info
      hfresh hp ht hig hsk ha

/-- Witness for C5: a cached Unsupported classification aborts the operation
with the unsupported-packaging error. -/
theorem unsupported_packaging_terminal_witness :
    (installPrepare basePrepareEnv baseParams
        { baseIstate with installerInfo := some ⟨InstallerType.unsupported⟩ }
        true).outcome
      = PrepareOutcome.err Err.unsupportedPackaging :=
  unsupported_packaging_terminal basePrepareEnv baseParams
    { baseIstate with installerInfo := some ⟨InstallerType.unsupported⟩ } true
    ⟨InstallerType.unsupported⟩ (by decide) rfl rfl rfl
    (Or.inl ⟨rfl, rfl⟩)

/-! ## C10 — IgnoreInstallers makes the unsupported branch unreachable on a
fresh probe -/

/-- C10: with `IgnoreInstallers` set and no usable cached classification,
every freshly probed classification other than Archive and Naked is rewritten
to Naked before the terminal unsupported check, so the run never returns the
unsupported-packaging error: it invokes the continuation task with the
classification in effect being Archive or Naked. -/
theorem ignore_installers_never_unsupported (env : PrepareEnv)
    (params : InstallPerformParams) (istate : InstallSubcontextState)
    (allowDownloads : Bool) (info0 : InstallerInfo)
    (hsess : istate.downloadSessionId ≠ "")
    (hheal : (healDecision env.receiptIn params env.findUpgrade).1 = false)
    (hopen : env.openSource = .ok ())
    (hext : env.uploadIsProbablyExternal = false)
    (hign : params.ignoreInstallers = true)
    (hfresh : istate.installerInfo = none
      ∨ ∃ i, istate.installerInfo = some i ∧ i.type = InstallerType.unknown)
    (hp : env.probe = .ok info0)
    (hsk : env.seek = .ok ()) (ha : env.assessDiskUsage = .ok ()) :
    (installPrepare env params istate allowDownloads).outcome
        = PrepareOutcome.task InstallPerformStrategyNone env.receiptIn
      ∧ ((installPrepare env params istate allowDownloads).istate.installerInfo
            = some ⟨InstallerType.archive⟩
        ∨ (installPrepare env params istate allowDownloads).istate.installerInfo
            = some ⟨InstallerType.naked⟩) := by
  have hbody : (probeFresh env params istate env.receiptIn).outcome
        = PrepareOutcome.task InstallPerformStrategyNone env.receiptIn
      ∧ ((probeFresh env params istate env.receiptIn).istate.installerInfo
            = some ⟨InstallerType.archive⟩
        ∨ (probeFresh env params istate env.receiptIn).istate.installerInfo
            = some ⟨InstallerType.naked⟩) := by
    unfold probeFresh
    rw [hp, hsk, ha, hign]
    rcases info0 with ⟨t⟩
    cases t <;> simp [checkUnsupported]
  have hphase : probePhase env params istate env.receiptIn
      = probeFresh env params istate env.receiptIn := by
    unfold probePhase
    rcases hfresh with hn | ⟨i, hi, hit⟩
    · rw [hn]
    · simp [hi, hit]
  unfold installPrepare
  rw [if_neg hsess]
  unfold installPrepareAfterSession
  rcases hd : healDecision env.receiptIn params env.findUpgrade with ⟨b, fuc⟩
  rw [hd] at hheal
  simp only at hheal
  subst hheal
  have hip : installPath env params istate allowDownloads env.receiptIn
      = probePhase env params istate env.receiptIn := by
    unfold installPath
    rw [hopen, hext]
    simp
  rw [hip, hphase]
  exact hbody

/-- Witness for C10: a probe classifying the source as a native Windows
installer proceeds as Naked instead of failing. -/
theorem ignore_installers_never_unsupported_witness :
    (installPrepare { basePrepareEnv with probe := .ok ⟨InstallerType.windows⟩ }
        { baseParams with ignoreInstallers := true } baseIstate true).outcome
      = PrepareOutcome.task InstallPerformStrategyNone none
    ∧ ((installPrepare { basePrepareEnv with probe := .ok ⟨InstallerType.windows⟩ }
        { baseParams with ignoreInstallers := true } baseIstate true).istate.installerInfo
          = some ⟨InstallerType.archive⟩
      ∨ (installPrepare { basePrepareEnv with probe := .ok ⟨InstallerType.windows⟩ }
        { baseParams with ignoreInstallers := true } baseIstate true).istate.installerInfo
          = some ⟨InstallerType.naked⟩) :=
  ignore_installers_never_unsupported
    { basePrepareEnv with probe := .ok ⟨InstallerType.windows⟩ }
    { baseParams with ignoreInstallers := true } baseIstate true
    ⟨InstallerType.windows⟩ (by decide) rfl rfl rfl rfl (Or.inl rfl) rfl rfl rfl

/-! ## C8 — checkpointed fields are set at most once

The claim fails for `InstallerInfo`: line 276 re-probes not only when the
cached value is absent but also when its type is Unknown, so a cached
Unknown-typed classification is recomputed on resume. All other fields are
preserved once set. -/

theorem doForceLocal_state (env : ForceLocalEnv) (istate : InstallSubcontextState) :
    (doForceLocal env istate).2 = istate
    ∨ (doForceLocal env istate).2 = { istate with isAvailableLocally := true } := by
  unfold doForceLocal
  repeat' split
  all_goals simp_all

theorem checkUnsupported_istate (info : InstallerInfo) (istate : InstallSubcontextState)
    (receiptIn : Option Receipt) :
    (checkUnsupported info istate receiptIn).istate = istate := by
  unfold checkUnsupported
  split <;> rfl

theorem probeFresh_istate (env : PrepareEnv) (params : InstallPerformParams)
    (istate : InstallSubcontextState) (receiptIn : Option Receipt) :
    (probeFresh env params istate receiptIn).istate = istate
    ∨ ∃ info1, (probeFresh env params istate receiptIn).istate
        = { istate with installerInfo := some info1 } := by
  unfold probeFresh
  cases hp : env.probe with
  | error e => left; rfl
  | ok info0 =>
    cases hs : env.seek with
    | error e => left; rfl
    | ok a =>
      cases ha : env.assessDiskUsage with
      | error e => left; rfl
      | ok a2 =>
        right
        exact ⟨_, checkUnsupported_istate _ _ _⟩

theorem probePhase_fresh_eq (env : PrepareEnv) (params : InstallPerformParams)
    (istate : InstallSubcontextState) (receiptIn : Option Receipt)
    (hfresh : istate.installerInfo = none
      ∨ ∃ i, istate.installerInfo = some i ∧ i.type = InstallerType.unknown) :
    probePhase env params istate receiptIn = probeFresh env params istate receiptIn := by
  unfold probePhase
  rcases hfresh with hn | ⟨i, hi, hit⟩
  · rw [hn]
  · simp [hi, hit]

theorem probePhase_cached_istate (env : PrepareEnv) (params : InstallPerformParams)
    (istate : InstallSubcontextState) (receiptIn : Option Receipt) (i : InstallerInfo)
    (hi : istate.installerInfo = some i) (hn : i.type ≠ InstallerType.unknown) :
    (probePhase env params istate receiptIn).istate = istate := by
  unfold probePhase
  simp only [hi]
  simp only [if_neg hn]
  exact checkUnsupported_istate _ _ _

theorem probePhase_preserves (env : PrepareEnv) (params : InstallPerformParams)
    (istate : InstallSubcontextState) (receiptIn : Option Receipt) :
    (probePhase env params istate receiptIn).istate.downloadSessionId
        = istate.downloadSessionId
      ∧ (istate.isAvailableLocally = true →
        (probePhase env params istate receiptIn).istate.isAvailableLocally = true)
      ∧ (∀ i, istate.installerInfo = some i → i.type ≠ InstallerType.unknown →
        (probePhase env params istate receiptIn).istate.installerInfo = some i) := by
  have hchar : (probePhase env params istate receiptIn).istate = istate
      ∨ ∃ info1, (probePhase env params istate receiptIn).istate
          = { istate with installerInfo := some info1 } := by
    cases hmi : istate.installerInfo with
    | none =>
      rw [probePhase_fresh_eq env params istate receiptIn (Or.inl hmi)]
      exact probeFresh_istate env params istate receiptIn
    | some info =>
      by_cases hu : info.type = InstallerType.unknown
      · rw [probePhase_fresh_eq env params istate receiptIn (Or.inr ⟨info, hmi, hu⟩)]
        exact probeFresh_istate env params istate receiptIn
      · left
        exact probePhase_cached_istate env params istate receiptIn info hmi hu
  refine ⟨?_, ?_, ?_⟩
  · rcases hchar with h | ⟨i1, h⟩ <;> rw [h]
  · intro hl
    rcases hchar with h | ⟨i1, h⟩ <;> rw [h] <;> exact hl
  · intro i hi hn
    rw [probePhase_cached_istate env params istate receiptIn i hi hn]
    exact hi

theorem installPath_preserves (env : PrepareEnv) (params : InstallPerformParams)
    (istate : InstallSubcontextState) (allowDownloads : Bool)
    (receiptIn : Option Receipt) :
    (installPath env params istate allowDownloads receiptIn).istate.downloadSessionId
        = istate.downloadSessionId
      ∧ (istate.isAvailableLocally = true →
        (installPath env params istate allowDownloads receiptIn).istate.isAvailableLocally
          = true)
      ∧ (∀ i, istate.installerInfo = some i → i.type ≠ InstallerType.unknown →
        (installPath env params istate allowDownloads receiptIn).istate.installerInfo
          = some i) := by
  unfold installPath
  split
  · exact ⟨rfl, fun h => h, fun i hi _ => hi⟩
  split
  · split
    · rcases hdf : doForceLocal env.forceLocal istate with ⟨flr, ist1⟩
      have hst : ist1 = istate ∨ ist1 = { istate with isAvailableLocally := true } := by
        have h2 := doForceLocal_state env.forceLocal istate
        rw [hdf] at h2
        exact h2
      cases flr with
      | error e =>
        rcases hst with h1 | h1 <;> subst h1
        · exact ⟨rfl, fun h => h, fun i hi _ => hi⟩
        · exact ⟨rfl, fun _ => rfl, fun i hi _ => hi⟩
      | ok a =>
        have hp := probePhase_preserves env params ist1 receiptIn
        rcases hst with h1 | h1 <;> subst h1
        · exact hp
        · exact ⟨hp.1, fun _ => hp.2.1 rfl, fun i hi hn => hp.2.2 i hi hn⟩
    · exact ⟨rfl, fun h => h, fun i hi _ => hi⟩
  · exact probePhase_preserves env params istate receiptIn

theorem prepare_preserves_fields (env : PrepareEnv) (params : InstallPerformParams)
    (istate : InstallSubcontextState) (allowDownloads : Bool)
    (receiptIn : Option Receipt) :
    (installPrepareAfterSession env params istate allowDownloads receiptIn).istate.downloadSessionId
        = istate.downloadSessionId
      ∧ (istate.isAvailableLocally = true →
        (installPrepareAfterSession env params istate allowDownloads receiptIn).istate.isAvailableLocally
          = true)
      ∧ (∀ i, istate.installerInfo = some i → i.type ≠ InstallerType.unknown →
        (installPrepareAfterSession env params istate allowDownloads receiptIn).istate.installerInfo
          = some i) := by
  unfold installPrepareAfterSession
  rcases hd : healDecision receiptIn params env.findUpgrade with ⟨b, fuc⟩
  cases b
  · exact installPath_preserves env params istate allowDownloads receiptIn
  · exact ⟨rfl, fun h => h, fun i hi _ => hi⟩

/-- One subcontext state evolves from another when every checkpointed field
that was set is carried over unchanged and the local-availability flag is
monotone. -/
def Evolves (a b : InstallSubcontextState) : Prop :=
  b.downloadSessionId = a.downloadSessionId
  ∧ (a.isAvailableLocally = true → b.isAvailableLocally = true)
  ∧ b.installerInfo = a.installerInfo
  ∧ (∀ si, a.secondInstallerInfo = some si → b.secondInstallerInfo = some si)
  ∧ (∀ fr, a.firstInstallResult = some fr → b.firstInstallResult = some fr)

theorem evolves_refl (a : InstallSubcontextState) : Evolves a a :=
  ⟨rfl, fun h => h, rfl, fun _ h => h, fun _ h => h⟩

theorem evolves_trans {a b c : InstallSubcontextState}
    (h1 : Evolves a b) (h2 : Evolves b c) : Evolves a c :=
  ⟨h2.1.trans h1.1, fun h => h2.2.1 (h1.2.1 h), h2.2.2.1.trans h1.2.2.1,
    fun si hs => h2.2.2.2.1 si (h1.2.2.2.1 si hs),
    fun fr hf => h2.2.2.2.2 fr (h1.2.2.2.2 fr hf)⟩

theorem doForceLocal_evolves (env : ForceLocalEnv) (istate : InstallSubcontextState) :
    Evolves istate (doForceLocal env istate).2 := by
  rcases doForceLocal_state env istate with h | h <;> rw [h]
  · exact evolves_refl istate
  · exact ⟨rfl, fun _ => rfl, rfl, fun _ h => h, fun _ h => h⟩

theorem firstInstallStep_evolves (env : PerformEnv) (istate : InstallSubcontextState) :
    Evolves istate (firstInstallStep env istate).istate := by
  unfold firstInstallStep
  rcases hf : istate.firstInstallResult with _ | r
  · simp only []
    rcases h0 : env.attempts 0 with e | r
    · simp only []
      by_cases hne : e = Err.needLocal
      · rw [if_pos hne]
        rcases hdf : doForceLocal env.forceLocal istate with ⟨flr, ist1⟩
        have hev : Evolves istate ist1 := by
          have h2 := doForceLocal_evolves env.forceLocal istate
          rw [hdf] at h2
          exact h2
        rcases flr with e2 | a
        · exact hev
        · simp only []
          rcases h1 : env.attempts 1 with e2 | r
          · exact hev
          · refine ⟨hev.1, hev.2.1, hev.2.2.1, hev.2.2.2.1, fun fr hfr => ?_⟩
            rw [hf] at hfr
            exact Option.noConfusion hfr
      · rw [if_neg hne]
        exact evolves_refl istate
    · refine ⟨rfl, fun h => h, rfl, fun _ h => h, fun fr hfr => ?_⟩
      rw [hf] at hfr
      exact Option.noConfusion hfr
  · exact evolves_refl istate

theorem nestedDispatch_istate (env : PerformEnv) (istate : InstallSubcontextState)
    (firstCalls : Nat) (si : InstallerInfo) :
    (nestedDispatch env istate firstCalls si).istate = istate := by
  unfold nestedDispatch
  dsimp only
  repeat' split
  all_goals rfl

theorem nestedStep_evolves (env : PerformEnv) (istate : InstallSubcontextState)
    (firstCalls : Nat) :
    Evolves istate (nestedStep env istate firstCalls).istate := by
  unfold nestedStep
  rcases hs : istate.secondInstallerInfo with _ | si
  · simp only []
    rcases ho : env.openSingle with e | a
    · exact evolves_refl istate
    · simp only []
      rcases hp : env.probeSecond with e | si
      · exact evolves_refl istate
      · simp only []
        rw [nestedDispatch_istate]
        refine ⟨rfl, fun h => h, rfl, fun si2 h => ?_, fun _ h => h⟩
        rw [hs] at h
        exact Option.noConfusion h
  · simp only []
    rw [nestedDispatch_istate]
    exact evolves_refl istate

theorem installTask_evolves (env : PerformEnv) (istate : InstallSubcontextState)
    (s : InstallPerformStrategy) (receiptIn : Option Receipt) :
    Evolves istate (installTask env istate s receiptIn).istate := by
  unfold installTask
  split
  · exact evolves_refl istate
  rcases hst : env.statFile with e | a
  · exact evolves_refl istate
  simp only []
  rcases hmi : istate.installerInfo with _ | info
  · exact evolves_refl istate
  simp only []
  split
  · rcases hfs : firstInstallStep env istate with ⟨fr, ist1, c1⟩
    have h2 : Evolves istate ist1 := by
      have h4 := firstInstallStep_evolves env istate
      rw [hfs] at h4
      exact h4
    rcases fr with e | firstResult
    · exact h2
    simp only []
    split
    · rcases hns : nestedStep env ist1 c1 with ⟨nr, ist2, nc⟩
      have h3 : Evolves ist1 ist2 := by
        have h4 := nestedStep_evolves env ist1 c1
        rw [hns] at h4
        exact h4
      rcases nr with e | o
      · exact evolves_trans h2 h3
      rcases o with _ | ⟨si, res2⟩
      · exact evolves_trans h2 h3
      · exact evolves_trans h2 h3
    · exact h2
  · exact evolves_refl istate

/-- C8 as amended: every checkpointed field of the install substate other than
`InstallerInfo` transitions at most once from unset to set and, once set, is
reused unchanged — in particular a recorded `FirstInstallResult` makes the
first install step skip the backend entirely — while `InstallerInfo` is
likewise preserved once set with any type other than Unknown, but a cached
classification of type Unknown is treated as undetermined and recomputed. -/
theorem substate_fields_set_once (penv : PrepareEnv) (params : InstallPerformParams)
    (istate : InstallSubcontextState) (allowDownloads : Bool) (tenv : PerformEnv)
    (s : InstallPerformStrategy) (receiptIn : Option Receipt) :
    ((istate.downloadSessionId ≠ "" →
        (installPrepare penv params istate allowDownloads).istate.downloadSessionId
          = istate.downloadSessionId)
      ∧ (istate.downloadSessionId ≠ "" → istate.isAvailableLocally = true →
        (installPrepare penv params istate allowDownloads).istate.isAvailableLocally = true)
      ∧ (istate.downloadSessionId ≠ "" →
        ∀ i, istate.installerInfo = some i → i.type ≠ InstallerType.unknown →
          (installPrepare penv params istate allowDownloads).istate.installerInfo = some i))
    ∧ ((∀ fr, istate.firstInstallResult = some fr →
          firstInstallStep tenv istate = ⟨.ok fr, istate, 0⟩)
      ∧ (∀ si, istate.secondInstallerInfo = some si →
          (installTask tenv istate s receiptIn).istate.secondInstallerInfo = some si)
      ∧ (istate.isAvailableLocally = true →
          (installTask tenv istate s receiptIn).istate.isAvailableLocally = true)) := by
  have hprep := prepare_preserves_fields penv params istate allowDownloads penv.receiptIn
  constructor
  · have hsess : ∀ h : ¬ istate.downloadSessionId = "",
        installPrepare penv params istate allowDownloads
          = installPrepareAfterSession penv params istate allowDownloads penv.receiptIn := by
      intro h
      unfold installPrepare
      rw [if_neg h]
    refine ⟨fun h => ?_, fun h => ?_, fun h => ?_⟩ <;> rw [hsess h]
    · exact hprep.1
    · exact hprep.2.1
    · exact hprep.2.2
  · refine ⟨fun fr hfr => ?_, fun si hsi => ?_, fun hloc => ?_⟩
    · unfold firstInstallStep
      rw [hfr]
    · exact (installTask_evolves tenv istate s receiptIn).2.2.2.1 si hsi
    · exact (installTask_evolves tenv istate s receiptIn).2.1 hloc

/-- C8 counterexample: `InstallerInfo` is a set field that gets recomputed —
a subcontext resumed with a cached classification of type Unknown re-probes
and ends the run with a different stored value. -/
theorem substate_fields_set_once_counterexample :
    ({ baseIstate with installerInfo := some ⟨InstallerType.unknown⟩ }
        : InstallSubcontextState).installerInfo = some ⟨InstallerType.unknown⟩
    ∧ (installPrepare basePrepareEnv baseParams
        { baseIstate with installerInfo := some ⟨InstallerType.unknown⟩ }
        true).istate.installerInfo = some ⟨InstallerType.archive⟩ := by
  refine ⟨rfl, by decide⟩

/-- Witness for the amended C8: a recorded first install result short-circuits
the first install step with zero backend invocations. -/
theorem substate_fields_set_once_witness :
    firstInstallStep basePerformEnv
        { baseIstate with firstInstallResult := some ⟨["kept"]⟩ }
      = ⟨.ok ⟨["kept"]⟩, { baseIstate with firstInstallResult := some ⟨["kept"]⟩ }, 0⟩ :=
  ((substate_fields_set_once basePrepareEnv baseParams
      { baseIstate with firstInstallResult := some ⟨["kept"]⟩ } true basePerformEnv
      InstallPerformStrategyNone none).2.1) ⟨["kept"]⟩ rfl

/-! ## C6 — the forced-local retry policy of the first install step -/

theorem installTask_firstStep_error (env : PerformEnv) (istate : InstallSubcontextState)
    (s : InstallPerformStrategy) (receiptIn : Option Receipt) (info : InstallerInfo)
    (e : Err) (ist1 : InstallSubcontextState) (c1 : Nat)
    (hs : s ≠ InstallPerformStrategyHeal)
    (hstat : env.statFile = .ok ())
    (hinfo : istate.installerInfo = some info)
    (hmgr : env.managerExists = true)
    (hfs : firstInstallStep env istate = ⟨.error e, ist1, c1⟩) :
    installTask env istate s receiptIn = ⟨.error e, ist1, c1, 0, none⟩ := by
  unfold installTask
  rw [if_neg hs, hstat]
  simp only []
  rw [hinfo]
  simp only []
  rw [hmgr]
  simp only [if_pos]
  rw [hfs]

/-- C6: when the first install attempt fails, the cause is checked against
`installer.ErrNeedLocal`: a non-local-related failure is propagated with no
retry; on the needs-local signal a forced-local copy is attempted — if the
copy itself fails the original error is propagated with no retry, and if it
succeeds the same backend is retried exactly once, a second failure being
propagated with no third invocation and a second success being recorded as
the first install result. -/
theorem needlocal_single_retry (env : PerformEnv) (istate : InstallSubcontextState)
    (receiptIn : Option Receipt) (info : InstallerInfo) (e : Err)
    (hstat : env.statFile = .ok ())
    (hinfo : istate.installerInfo = some info)
    (hmgr : env.managerExists = true)
    (hfirst : istate.firstInstallResult = none)
    (h0 : env.attempts 0 = .error e) :
    (e ≠ Err.needLocal →
      (installTask env istate InstallPerformStrategyNone receiptIn).outcome = .error e
      ∧ (installTask env istate InstallPerformStrategyNone receiptIn).installCalls = 1)
    ∧ (∀ e3 ist1, e = Err.needLocal →
        doForceLocal env.forceLocal istate = (.error e3, ist1) →
        (installTask env istate InstallPerformStrategyNone receiptIn).outcome = .error e
        ∧ (installTask env istate InstallPerformStrategyNone receiptIn).installCalls = 1)
    ∧ (∀ e2 ist1, e = Err.needLocal →
        doForceLocal env.forceLocal istate = (.ok (), ist1) →
        env.attempts 1 = .error e2 →
        (installTask env istate InstallPerformStrategyNone receiptIn).outcome = .error e2
        ∧ (installTask env istate InstallPerformStrategyNone receiptIn).installCalls = 2)
    ∧ (∀ rr ist1, e = Err.needLocal →
        doForceLocal env.forceLocal istate = (.ok (), ist1) →
        env.attempts 1 = .ok rr →
        firstInstallStep env istate
          = ⟨.ok rr, { ist1 with firstInstallResult := some rr }, 2⟩) := by
  have hnone : (InstallPerformStrategyNone : InstallPerformStrategy)
      ≠ InstallPerformStrategyHeal := by decide
  refine ⟨fun hne => ?_, fun e3 ist1 hel hdf => ?_, fun e2 ist1 hel hdf h1 => ?_,
    fun rr ist1 hel hdf h1 => ?_⟩
  · have hfs : firstInstallStep env istate = ⟨.error e, istate, 1⟩ := by
      unfold firstInstallStep
      rw [hfirst]
      simp only []
      rw [h0]
      simp only []
      rw [if_neg hne]
    rw [installTask_firstStep_error env istate _ receiptIn info e istate 1
      hnone hstat hinfo hmgr hfs]
    exact ⟨rfl, rfl⟩
  · subst hel
    have hfs : firstInstallStep env istate = ⟨.error Err.needLocal, ist1, 1⟩ := by
      unfold firstInstallStep
      rw [hfirst]
      simp only []
      rw [h0]
      simp only []
      simp only [if_true]
      rw [hdf]
    rw [installTask_firstStep_error env istate _ receiptIn info Err.needLocal ist1 1
      hnone hstat hinfo hmgr hfs]
    exact ⟨rfl, rfl⟩
  · subst hel
    have hfs : firstInstallStep env istate = ⟨.error e2, ist1, 2⟩ := by
      unfold firstInstallStep
      rw [hfirst]
      simp only []
      rw [h0]
      simp only []
      simp only [if_true]
      rw [hdf]
      simp only []
      rw [h1]
    rw [installTask_firstStep_error env istate _ receiptIn info e2 ist1 2
      hnone hstat hinfo hmgr hfs]
    exact ⟨rfl, rfl⟩
  · subst hel
    unfold firstInstallStep
    rw [hfirst]
    simp only []
    rw [h0]
    simp only []
    simp only [if_true]
    rw [hdf]
    simp only []
    rw [h1]

/-- Witness for C6: a needs-local first failure followed by a successful copy
and a failing retry propagates the retry's error after exactly two backend
invocations. -/
theorem needlocal_single_retry_witness :
    (installTask
        { basePerformEnv with
            attempts := fun n =>
              if n = 0 then .error Err.needLocal else .error (.other "retry failed") }
        { baseIstate with installerInfo := some ⟨InstallerType.archive⟩ }
        InstallPerformStrategyNone none).outcome = .error (.other "retry failed")
    ∧ (installTask
        { basePerformEnv with
            attempts := fun n =>
              if n = 0 then .error Err.needLocal else .error (.other "retry failed") }
        { baseIstate with installerInfo := some ⟨InstallerType.archive⟩ }
        InstallPerformStrategyNone none).installCalls = 2 :=
  (needlocal_single_retry
      { basePerformEnv with
          attempts := fun n =>
            if n = 0 then .error Err.needLocal else .error (.other "retry failed") }
      { baseIstate with installerInfo := some ⟨InstallerType.archive⟩ }
      none ⟨InstallerType.archive⟩ Err.needLocal rfl rfl rfl rfl rfl).2.2.1
    (.other "retry failed")
    { baseIstate with
        installerInfo := some ⟨InstallerType.archive⟩, isAvailableLocally := true }
    rfl rfl rfl

/-! ## C7 — nested installer dispatch: trigger condition and depth bound -/

theorem installTask_firstStep_ok (env : PerformEnv) (istate : InstallSubcontextState)
    (s : InstallPerformStrategy) (receiptIn : Option Receipt) (info : InstallerInfo)
    (fr : InstallResult) (ist1 : InstallSubcontextState) (c1 : Nat)
    (hs : s ≠ InstallPerformStrategyHeal)
    (hstat : env.statFile = .ok ())
    (hinfo : istate.installerInfo = some info)
    (hmgr : env.managerExists = true)
    (hfs : firstInstallStep env istate = ⟨.ok fr, ist1, c1⟩) :
    installTask env istate s receiptIn
      = if fr.files.length = 1 then
          match nestedStep env ist1 c1 with
          | ⟨.error e, ist2, nc⟩ => ⟨.error e, ist2, c1 + nc, nc, none⟩
          | ⟨.ok none, ist2, nc⟩ => ⟨env.commit, ist2, c1 + nc, nc, some (info.type, fr)⟩
          | ⟨.ok (some (si, res2)), ist2, nc⟩ =>
              ⟨env.commit, ist2, c1 + nc, nc, some (si.type, res2)⟩
        else ⟨env.commit, ist1, c1, 0, some (info.type, fr)⟩ := by
  unfold installTask
  rw [if_neg hs, hstat]
  simp only []
  rw [hinfo]
  simp only []
  rw [hmgr]
  simp only [if_pos]
  rw [hfs]

theorem nestedDispatch_calls_le (env : PerformEnv) (istate : InstallSubcontextState)
    (firstCalls : Nat) (si : InstallerInfo) :
    (nestedDispatch env istate firstCalls si).nestedCalls ≤ 1 := by
  unfold nestedDispatch
  dsimp only
  repeat' split
  all_goals simp

theorem nestedStep_calls_le (env : PerformEnv) (istate : InstallSubcontextState)
    (firstCalls : Nat) :
    (nestedStep env istate firstCalls).nestedCalls ≤ 1 := by
  unfold nestedStep
  rcases hs : istate.secondInstallerInfo with _ | si
  · simp only []
    rcases ho : env.openSingle with e | a
    · simp
    · simp only []
      rcases hp : env.probeSecond with e | si
      · simp
      · simp only []
        exact nestedDispatch_calls_le env _ firstCalls si
  · simp only []
    exact nestedDispatch_calls_le env istate firstCalls si

theorem nestedDispatch_calls_windows (env : PerformEnv) (istate : InstallSubcontextState)
    (firstCalls : Nat) (si : InstallerInfo)
    (h : 1 ≤ (nestedDispatch env istate firstCalls si).nestedCalls) :
    IsWindowsInstaller si.type = true := by
  unfold nestedDispatch at h
  dsimp only at h
  repeat' split at h
  all_goals simp_all

theorem nestedStep_calls_windows (env : PerformEnv) (istate : InstallSubcontextState)
    (firstCalls : Nat)
    (h : 1 ≤ (nestedStep env istate firstCalls).nestedCalls) :
    ∃ si, nestedSecondInfo env istate = some si ∧ IsWindowsInstaller si.type = true := by
  unfold nestedStep at h
  unfold nestedSecondInfo
  rcases hs : istate.secondInstallerInfo with _ | si
  · rw [hs] at h
    simp only [] at h ⊢
    rcases ho : env.openSingle with e | a
    · rw [ho] at h
      simp at h
    · rw [ho] at h
      simp only [] at h ⊢
      rcases hp : env.probeSecond with e | si
      · rw [hp] at h
        simp at h
      · rw [hp] at h
        simp only [] at h ⊢
        exact ⟨si, rfl, nestedDispatch_calls_windows env _ firstCalls si h⟩
  · rw [hs] at h
    simp only [] at h ⊢
    exact ⟨si, rfl, nestedDispatch_calls_windows env istate firstCalls si h⟩

theorem installTask_nestedCalls_le (env : PerformEnv) (istate : InstallSubcontextState)
    (s : InstallPerformStrategy) (receiptIn : Option Receipt) :
    (installTask env istate s receiptIn).nestedCalls ≤ 1 := by
  unfold installTask
  split
  · simp
  rcases hst : env.statFile with e | a
  · simp
  simp only []
  rcases hmi : istate.installerInfo with _ | info
  · simp
  simp only []
  split
  · rcases hfs : firstInstallStep env istate with ⟨fr, ist1, c1⟩
    rcases fr with e | firstResult
    · simp
    simp only []
    split
    · rcases hns : nestedStep env ist1 c1 with ⟨nr, ist2, nc⟩
      have hle : nc ≤ 1 := by
        have h4 := nestedStep_calls_le env ist1 c1
        rw [hns] at h4
        exact h4
      rcases nr with e | o
      · simpa using hle
      rcases o with _ | ⟨si, res2⟩
      · simpa using hle
      · simpa using hle
    · simp
  · simp

theorem nestedStep_skip (env : PerformEnv) (istate : InstallSubcontextState)
    (firstCalls : Nat) (si : InstallerInfo)
    (hsi : nestedSecondInfo env istate = some si)
    (hw : IsWindowsInstaller si.type = false) :
    (nestedStep env istate firstCalls).result = .ok none
    ∧ (nestedStep env istate firstCalls).nestedCalls = 0 := by
  unfold nestedSecondInfo at hsi
  unfold nestedStep
  rcases hs : istate.secondInstallerInfo with _ | si0
  · rw [hs] at hsi
    simp only [] at hsi ⊢
    rcases ho : env.openSingle with e | a
    · rw [ho] at hsi
      exact Option.noConfusion hsi
    · rw [ho] at hsi
      simp only [] at hsi ⊢
      rcases hp : env.probeSecond with e | si1
      · rw [hp] at hsi
        exact Option.noConfusion hsi
      · rw [hp] at hsi
        simp only [] at hsi ⊢
        cases hsi
        unfold nestedDispatch
        rw [hw]
        simp
  · rw [hs] at hsi
    simp only [] at hsi ⊢
    cases hsi
    unfold nestedDispatch
    rw [hw]
    simp

theorem nestedStep_runs (env : PerformEnv) (istate : InstallSubcontextState)
    (firstCalls : Nat) (si : InstallerInfo) (res2 : InstallResult)
    (hsi : nestedSecondInfo env istate = some si)
    (hw : IsWindowsInstaller si.type = true)
    (hmgr2 : env.nestedManagerExists = true)
    (hdest : env.nestedDestExists = true)
    (hopen : env.openNested = .ok ())
    (hatt : env.attempts firstCalls = .ok res2) :
    (nestedStep env istate firstCalls).result = .ok (some (si, res2))
    ∧ (nestedStep env istate firstCalls).nestedCalls = 1 := by
  have hdisp : ∀ ist2 : InstallSubcontextState,
      (nestedDispatch env ist2 firstCalls si).result = .ok (some (si, res2))
      ∧ (nestedDispatch env ist2 firstCalls si).nestedCalls = 1 := by
    intro ist2
    unfold nestedDispatch
    rw [hw]
    simp only [if_pos]
    rw [hmgr2]
    simp only [if_pos]
    rw [hdest]
    simp only [if_pos, if_true]
    rw [hopen]
    simp only []
    rw [hatt]
    exact ⟨rfl, rfl⟩
  unfold nestedSecondInfo at hsi
  unfold nestedStep
  rcases hs : istate.secondInstallerInfo with _ | si0
  · rw [hs] at hsi
    simp only [] at hsi ⊢
    rcases ho : env.openSingle with e | a
    · rw [ho] at hsi
      exact Option.noConfusion hsi
    · rw [ho] at hsi
      simp only [] at hsi ⊢
      rcases hp : env.probeSecond with e | si1
      · rw [hp] at hsi
        exact Option.noConfusion hsi
      · rw [hp] at hsi
        simp only [] at hsi ⊢
        cases hsi
        exact hdisp _
  · rw [hs] at hsi
    simp only [] at hsi ⊢
    cases hsi
    exact hdisp istate

/-- C7: a nested backend invocation happens exactly for a singleton first
manifest whose single file's classification in effect is a Windows-installer
type: any other manifest size commits the first result with no nested
invocation, a non-Windows classification is ignored, and in the Windows case
(given the nested manager, relocation and open succeed) exactly one nested
invocation runs and its result is what reaches `commitInstall`; the nested
result is never recursed further — nested invocations are bounded by one in
every run. -/
theorem nested_iff_singleton_windows (env : PerformEnv) (istate : InstallSubcontextState)
    (receiptIn : Option Receipt) (info : InstallerInfo) (fr : InstallResult)
    (ist1 : InstallSubcontextState) (c1 : Nat)
    (hstat : env.statFile = .ok ())
    (hinfo : istate.installerInfo = some info)
    (hmgr : env.managerExists = true)
    (hfs : firstInstallStep env istate = ⟨.ok fr, ist1, c1⟩) :
    (fr.files.length ≠ 1 →
      installTask env istate InstallPerformStrategyNone receiptIn
        = ⟨env.commit, ist1, c1, 0, some (info.type, fr)⟩)
    ∧ (∀ si, fr.files.length = 1 →
        nestedSecondInfo env ist1 = some si →
        IsWindowsInstaller si.type = false →
        (installTask env istate InstallPerformStrategyNone receiptIn).nestedCalls = 0
        ∧ (installTask env istate InstallPerformStrategyNone receiptIn).committed
            = some (info.type, fr))
    ∧ (∀ si res2, fr.files.length = 1 →
        nestedSecondInfo env ist1 = some si →
        IsWindowsInstaller si.type = true →
        env.nestedManagerExists = true →
        env.nestedDestExists = true →
        env.openNested = .ok () →
        env.attempts c1 = .ok res2 →
        (installTask env istate InstallPerformStrategyNone receiptIn).nestedCalls = 1
        ∧ (installTask env istate InstallPerformStrategyNone receiptIn).committed
            = some (si.type, res2)
        ∧ (installTask env istate InstallPerformStrategyNone receiptIn).outcome
            = env.commit)
    ∧ (∀ (env2 : PerformEnv) (ist2 : InstallSubcontextState) (c : Nat),
        (nestedStep env2 ist2 c).nestedCalls ≤ 1)
    ∧ (∀ (env2 : PerformEnv) (ist2 : InstallSubcontextState)
        (s2 : InstallPerformStrategy) (r2 : Option Receipt),
        (installTask env2 ist2 s2 r2).nestedCalls ≤ 1)
    ∧ (∀ (env2 : PerformEnv) (ist2 : InstallSubcontextState) (c : Nat),
        1 ≤ (nestedStep env2 ist2 c).nestedCalls →
        ∃ si, nestedSecondInfo env2 ist2 = some si
          ∧ IsWindowsInstaller si.type = true) := by
  have hnone : (InstallPerformStrategyNone : InstallPerformStrategy)
      ≠ InstallPerformStrategyHeal := by decide
  have hred := installTask_firstStep_ok env istate InstallPerformStrategyNone receiptIn
    info fr ist1 c1 hnone hstat hinfo hmgr hfs
  refine ⟨fun hlen => ?_, fun si hlen hsi hw => ?_, fun si res2 hlen hsi hw hm2 hd ho ha => ?_,
    fun env2 ist2 c => nestedStep_calls_le env2 ist2 c,
    fun env2 ist2 s2 r2 => installTask_nestedCalls_le env2 ist2 s2 r2,
    fun env2 ist2 c h => nestedStep_calls_windows env2 ist2 c h⟩
  · rw [hred, if_neg hlen]
  · have hskip := nestedStep_skip env ist1 c1 si hsi hw
    rcases hns : nestedStep env ist1 c1 with ⟨nr, ist2, nc⟩
    rw [hns] at hskip
    simp only [] at hskip
    rw [hred, if_pos hlen, hns, hskip.1, hskip.2]
    exact ⟨rfl, rfl⟩
  · have hrun := nestedStep_runs env ist1 c1 si res2 hsi hw hm2 hd ho ha
    rcases hns : nestedStep env ist1 c1 with ⟨nr, ist2, nc⟩
    rw [hns] at hrun
    simp only [] at hrun
    rw [hred, if_pos hlen, hns, hrun.1, hrun.2]
    exact ⟨rfl, rfl, rfl⟩

/-- A perform environment for the C7 witness: the first invocation installs a
single `setup.exe`, the nested invocation installs the game files, and the
nested source is already relocated. -/
def envC7w : PerformEnv :=
  { basePerformEnv with
      attempts := fun n =>
        if n = 0 then .ok ⟨["setup.exe"]⟩ else .ok ⟨["game.exe", "data.pak"]⟩
    , nestedDestExists := true }

/-- Subcontext for the C7 witness: archive classification cached, single-file
probe cached as a Windows installer. -/
def istateC7w : InstallSubcontextState :=
  { baseIstate with
      installerInfo := some ⟨InstallerType.archive⟩
    , secondInstallerInfo := some ⟨InstallerType.windows⟩ }

/-- Witness for C7: one nested invocation of the Windows-installer backend,
whose manifest is the one committed. -/
theorem nested_iff_singleton_windows_witness :
    (installTask envC7w istateC7w InstallPerformStrategyNone none).nestedCalls = 1
    ∧ (installTask envC7w istateC7w InstallPerformStrategyNone none).committed
        = some (InstallerType.windows, ⟨["game.exe", "data.pak"]⟩)
    ∧ (installTask envC7w istateC7w InstallPerformStrategyNone none).outcome
        = Except.ok () := by
  have h := (nested_iff_singleton_windows envC7w istateC7w none
      ⟨InstallerType.archive⟩ ⟨["setup.exe"]⟩
      { istateC7w with firstInstallResult := some ⟨["setup.exe"]⟩ } 1
      rfl rfl rfl rfl).2.2.1
    ⟨InstallerType.windows⟩ ⟨["game.exe", "data.pak"]⟩ rfl rfl rfl rfl rfl rfl rfl
  exact ⟨h.1, h.2.1, h.2.2⟩

/-! ## C9 — staging state is retired only on success -/

/-- C9: with a valid staging folder and a loadable context, `InstallPerform`
calls `oc.Retire()` — deleting the staging state — exactly when
`doInstallPerform` succeeds; any error (cancellation included) is propagated
with the staging state left intact for resume. -/
theorem retire_only_after_success (stagingFolder : String) (loadContext : Except Err Unit)
    (penv : PrepareEnv) (tenv : PerformEnv) (params : InstallPerformParams)
    (istate0 : InstallSubcontextState) (retire : Except Err Unit)
    (hsf : stagingFolder ≠ "") (hlc : loadContext = .ok ()) :
    (∀ e, (doInstallPerform penv tenv params istate0).outcome = .error e →
      installPerform stagingFolder loadContext penv tenv params istate0 retire
        = ⟨.error e, false⟩)
    ∧ ((doInstallPerform penv tenv params istate0).outcome = .ok () →
      (installPerform stagingFolder loadContext penv tenv params istate0 retire).retired
        = true) := by
  constructor
  · intro e he
    unfold installPerform
    rw [if_neg hsf, hlc]
    simp only []
    rw [he]
  · intro hok
    unfold installPerform
    rw [if_neg hsf, hlc]
    simp only []
    rw [hok]
    simp only []
    rcases retire with e | a
    · rfl
    · rfl

/-- Witness for C9: a fully successful run retires the operation context. -/
theorem retire_only_after_success_witness :
    (installPerform "stage" (.ok ()) basePrepareEnv basePerformEnv baseParams
        baseIstate (.ok ())).retired = true :=
  (retire_only_after_success "stage" (.ok ()) basePrepareEnv basePerformEnv baseParams
      baseIstate (.ok ()) (by decide) rfl).2 rfl

end Butler
